import Mathlib

/-!
Verification of the XPT2046 touch-screen driver (src/xpt2046.py).

The driver is embedded shallowly:

* `Config` holds the fields set by `__init__` (the methods never assign to
  them; each operation nevertheless returns the post-call `Config` so that
  frame properties are statable).
* `Env` models the external collaborators: the level of the optional
  interrupt line and the stream of two-byte SPI responses, indexed by the
  ordinal number of the command transaction.
* Each operation takes the current transaction counter and returns its
  result, the post-call `Config`, the next counter, and the list of
  external events (chip-select changes, SPI writes/reads, sleeps, pin
  reads) it performed, in order.

Machine integers are `Nat`/`Int`.  Python `//` on non-negative ints is
`Nat` division; `int(a * b / c)` on ints of these magnitudes equals exact
truncating division `Int.tdiv (a * b) c`, because the float quotient of
exact products below 2^53 is correctly rounded and the exact quotient is
never within an ulp of a different integer (numerators stay below 2^22
while the quotient grid is 1/c with c < 2^13).  The floating-point
pressure comparison `z1 / z2 - 1 > 0.1` is modelled exactly: on the
13-bit channel values the IEEE-754 binary64 evaluation is equivalent to
an integer threshold test, derived at `pressure_exceeds`.
-/

/-- Command byte selecting the X-position channel (0b10010000). -/
def GET_X : Nat := 0x90

/-- Command byte selecting the Y-position channel (0b11010000). -/
def GET_Y : Nat := 0xD0

/-- Command byte selecting the Z1-pressure channel (0b10110000). -/
def GET_Z1 : Nat := 0xB0

/-- Command byte selecting the Z2-pressure channel (0b11000000). -/
def GET_Z2 : Nat := 0xC0

/-- The fields of an `XPT2046` instance, as set by `__init__`. -/
structure Config where
  hasIntPin : Bool
  width : Int
  height : Int
  x_min : Int
  x_max : Int
  y_min : Int
  y_max : Int
  rotation : Int
  touch_delay : Nat
  samples : Nat
deriving DecidableEq

/-- The constructor's default parameters (`width=240`, `height=320`,
`x_min=100`, `x_max=1962`, `y_min=100`, `y_max=1900`, `rotation=0`,
`touch_delay=10`, `samples=3`), with an interrupt pin supplied. -/
def defaultConfig : Config :=
  { hasIntPin := true, width := 240, height := 320,
    x_min := 100, x_max := 1962, y_min := 100, y_max := 1900,
    rotation := 0, touch_delay := 10, samples := 3 }

/-- External collaborators: `pinValue` is the digital level read from the
interrupt line (`true` = high); `bytes k` is the pair of response bytes the
SPI transport returns during the `k`-th command transaction. -/
structure Env where
  pinValue : Bool
  bytes : Nat → Nat × Nat

/-- Observable external actions, in the order the driver performs them. -/
inductive Event where
  | csLow : Event
  | csHigh : Event
  | spiWrite : Nat → Event
  | spiRead : Nat → Event
  | sleep_ms : Nat → Event
  | pinRead : Event
deriving DecidableEq

/-- One command transaction (`_command`): assert chip select, write the
command byte, read two bytes, deassert chip select, and combine the bytes
big-endian shifted right by 3. -/
def command (env : Env) (k : Nat) (cmd : Nat) : Nat × Nat × List Event :=
  (((env.bytes k).1 <<< 8 ||| (env.bytes k).2) >>> 3, k + 1,
    [Event.csLow, Event.spiWrite cmd, Event.spiRead 2, Event.csHigh])

/-- The source's pressure test `z1 / z2 - 1 > 0.1`, evaluated as Python
does in IEEE-754 binary64 arithmetic, expressed as an exact integer
threshold.  Derivation, for integers `0 ≤ z1 < 8192` and `1 ≤ z2 < 8192`
(the values `_command` yields from byte responses):

* The literal `0.1` is the double `C = 3602879701896397 / 2^55`; indeed
  `(1/10) * 2^56 = 7205759403792793.6` rounds to `7205759403792794`, so
  `fl(0.1) = 7205759403792794 / 2^56 = C`.
* Let `a = fl(z1 / z2)` be the correctly rounded quotient.  When
  `1/2 ≤ a ≤ 2` the subtraction `a - 1` is exact by the Sterbenz lemma,
  so the program's test is `a > 1 + C`.  When `a > 2` the subtraction
  rounds to a value `≥ 1 > C` (rounding is monotone and 1 is a double),
  and `a > 1 + C` holds as well.  When `a < 1/2` it rounds to a value
  `≤ -1/2 < C`, and `a > 1 + C` fails as well.  So in every case the
  program's test is equivalent to `a > 1 + C`.
* `1 + C = 4953959590107545.625 / 2^52` lies strictly between the
  consecutive doubles `4953959590107545 / 2^52` and
  `d = 4953959590107546 / 2^52`, so `a > 1 + C` iff `a ≥ d`.
* Rounding to nearest is monotone, so `fl(z1 / z2) ≥ d` iff
  `z1 / z2 ≥ M` with `M = 9907919180215091 / 2^53` the midpoint directly
  below `d`: the tie `z1 / z2 = M` itself rounds to `d`, whose
  significand is even; and no 13-bit ratio can equal `M` anyway, since
  the reduced denominator of `M` is `2^53`.

Hence the double comparison holds iff
`9907919180215091 * z2 ≤ z1 * 2^53`.  The threshold `M` is one half ulp
below `11/10`: a ratio exactly `11/10` reports touched, although
`z1 / z2 - 1 > 1/10` fails over the exact rationals. -/
def pressure_exceeds (z1 z2 : Nat) : Bool :=
  decide (9907919180215091 * z2 ≤ z1 * 2 ^ 53)

/-- The method `is_touched`: with an interrupt pin, report `true` iff the
(active-low) line reads low; otherwise read Z1 and Z2 and report pressure
`z1 / z2 - 1 > 0.1` in double arithmetic, guarding `z2 = 0`. -/
def is_touched (cfg : Config) (env : Env) (k : Nat) :
    Bool × Config × Nat × List Event :=
  if cfg.hasIntPin then
    (!env.pinValue, cfg, k, [Event.pinRead])
  else
    let r1 := command env k GET_Z1
    let r2 := command env r1.2.1 GET_Z2
    if r2.1 = 0 then (false, cfg, r2.2.1, r1.2.2 ++ r2.2.2)
    else (pressure_exceeds r1.1 r2.1, cfg, r2.2.1, r1.2.2 ++ r2.2.2)

/-- The sampling loop of `get_raw_touch`: `n` iterations, each reading the
X channel, then the Y channel, then sleeping for the settle delay.  Returns
the X sample buffer, the Y sample buffer, the next transaction counter and
the trace. -/
def sampleLoop (env : Env) (delay : Nat) :
    Nat → Nat → List Nat × List Nat × Nat × List Event
  | 0, k => ([], [], k, [])
  | n + 1, k =>
    let rx := command env k GET_X
    let ry := command env rx.2.1 GET_Y
    let rest := sampleLoop env delay n ry.2.1
    (rx.1 :: rest.1, ry.1 :: rest.2.1, rest.2.2.1,
      rx.2.2 ++ ry.2.2 ++ (Event.sleep_ms delay :: rest.2.2.2))

/-- The method `get_raw_touch`: return `none` when `is_touched` is false;
otherwise collect `samples` X/Y pairs, sort each buffer ascending, and take
the entry at index `samples / 2` when `samples ≥ 3`, else the floor average.
(With `samples = 0` the source raises `ZeroDivisionError`; the model's
`0 / 0 = 0` is never relied on: every theorem about the average assumes
`samples ∈ {1, 2}`.) -/
def get_raw_touch (cfg : Config) (env : Env) (k : Nat) :
    Option (Nat × Nat) × Config × Nat × List Event :=
  let r := is_touched cfg env k
  if r.1 then
    let s := sampleLoop env cfg.touch_delay cfg.samples r.2.2.1
    let xs := List.insertionSort (· ≤ ·) s.1
    let ys := List.insertionSort (· ≤ ·) s.2.1
    if 3 ≤ cfg.samples then
      (some (xs.getD (cfg.samples / 2) 0, ys.getD (cfg.samples / 2) 0),
        cfg, s.2.2.1, r.2.2.2 ++ s.2.2.2)
    else
      (some (xs.sum / xs.length, ys.sum / ys.length),
        cfg, s.2.2.1, r.2.2.2 ++ s.2.2.2)
  else (none, cfg, r.2.2.1, r.2.2.2)

/-- The calibration mapping of `get_touch`:
`x = width - int((x_raw - x_min) * width / (x_max - x_min))` and
`y = int((y_raw - y_min) * height / (y_max - y_min))`, with Python's
`int(...)` on these magnitudes being exact truncating division. -/
def map_coords (cfg : Config) (x_raw y_raw : Nat) : Int × Int :=
  (cfg.width - Int.tdiv (((x_raw : Int) - cfg.x_min) * cfg.width) (cfg.x_max - cfg.x_min),
   Int.tdiv (((y_raw : Int) - cfg.y_min) * cfg.height) (cfg.y_max - cfg.y_min))

/-- The rotation dispatch at the end of `get_touch`; a rotation outside
`{0, 1, 2, 3}` falls off the end of the Python method, returning `None`. -/
def apply_rotation (cfg : Config) (x y : Int) : Option (Int × Int) :=
  if cfg.rotation = 0 then some (x, y)
  else if cfg.rotation = 1 then some (y, cfg.width - x)
  else if cfg.rotation = 2 then some (cfg.width - x, cfg.height - y)
  else if cfg.rotation = 3 then some (cfg.height - y, x)
  else none

/-- The method `get_touch`: propagate `none` from `get_raw_touch`, else map
the raw pair to pixel space and apply the rotation transform. -/
def get_touch (cfg : Config) (env : Env) (k : Nat) :
    Option (Int × Int) × Config × Nat × List Event :=
  let r := get_raw_touch cfg env k
  match r.1 with
  | none => (none, cfg, r.2.2.1, r.2.2.2)
  | some (x_raw, y_raw) =>
    let p := map_coords cfg x_raw y_raw
    (apply_rotation cfg p.1 p.2, cfg, r.2.2.1, r.2.2.2)

/-- Predicate selecting bus events (chip-select changes, SPI writes, SPI
reads), as opposed to pin reads and sleeps. -/
def isBusEvent : Event → Bool
  | Event.csLow => true
  | Event.csHigh => true
  | Event.spiWrite _ => true
  | Event.spiRead _ => true
  | Event.sleep_ms _ => false
  | Event.pinRead => false

/-- Number of SPI read transactions in a trace; each channel read performs
exactly one. -/
def countReads (t : List Event) : Nat :=
  t.countP fun e => match e with | Event.spiRead _ => true | _ => false

/-- Number of settle delays in a trace. -/
def countSleeps (t : List Event) : Nat :=
  t.countP fun e => match e with | Event.sleep_ms _ => true | _ => false

/-- The sequence of command bytes written to the bus, in order. -/
def channelWrites (t : List Event) : List Nat :=
  t.filterMap fun e => match e with | Event.spiWrite b => some b | _ => none

/-- Environment whose even-numbered transactions (the X reads) decode to
1031 and whose odd-numbered ones (the Y reads) decode to 1000, with the
interrupt line reading low (touched). -/
def envA : Env :=
  { pinValue := false, bytes := fun k => if k % 2 = 0 then (32, 56) else (31, 64) }

/-- Environment answering every transaction with zero bytes, interrupt
line high. -/
def envZ : Env :=
  { pinValue := true, bytes := fun _ => (0, 0) }

/-- Environment whose X reads decode to 0 and whose Y reads decode to
1000, with the interrupt line reading low (touched). -/
def envCE : Env :=
  { pinValue := false, bytes := fun k => if k % 2 = 0 then (0, 0) else (31, 64) }

/-- Environment answering every transaction with 0xFF bytes. -/
def envFF : Env :=
  { pinValue := true, bytes := fun _ => (255, 255) }

/-- Environment whose transaction 0 decodes to 11 and transaction 1 to
10, exercising the pressure boundary ratio 11/10. -/
def envP : Env :=
  { pinValue := true,
    bytes := fun k => if k = 0 then (0, 88) else if k = 1 then (0, 80) else (0, 0) }

/-- Default configuration without an interrupt pin, so presence detection
falls back to the pressure estimate. -/
def cfgNoPin : Config :=
  { defaultConfig with hasIntPin := false }

/-- Default configuration with rotation index 4, outside the handled set. -/
def cfgRot4 : Config :=
  { defaultConfig with rotation := 4 }

/-- C5 counterexample: with response bytes (255, 255) the combined value is
8191, which is not below 4096: the right shift by 3 keeps the high 13 bits
of the 16-bit response, not the high 12. -/
theorem command_value_counterexample :
    envFF.bytes 0 = (255, 255) ∧
    (command envFF 0 GET_X).1 = (255 <<< 8 ||| 255) >>> 3 ∧
    (command envFF 0 GET_X).1 = 8191 ∧ ¬ (command envFF 0 GET_X).1 < 4096 := by
  decide

/-- C5 (amended): for response bytes (b0, b1), `_command` returns
`((b0 <<< 8) ||| b1) >>> 3`, a 13-bit value below 8192; it is below 4096
whenever the first byte is below 128, i.e. whenever the top bit of the
16-bit response is clear, as the hardware guarantees via its leading busy
bit. -/
theorem command_value (env : Env) (k cmd b0 b1 : Nat)
    (hb : env.bytes k = (b0, b1)) (h0 : b0 < 256) (h1 : b1 < 256) :
    (command env k cmd).1 = (b0 <<< 8 ||| b1) >>> 3 ∧
    (command env k cmd).1 < 8192 ∧
    (b0 < 128 → (command env k cmd).1 < 4096) := by
  have hres : (command env k cmd).1 = (b0 <<< 8 ||| b1) >>> 3 := by
    simp [command, hb]
  have hshl : b0 <<< 8 = b0 * 256 := by
    rw [Nat.shiftLeft_eq]
  refine ⟨hres, ?_, ?_⟩
  · have h16 : (b0 <<< 8 ||| b1) < 2 ^ 16 := by
      refine Nat.or_lt_two_pow ?_ ?_
      · rw [hshl]; norm_num; omega
      · norm_num; omega
    rw [hres, Nat.shiftRight_eq_div_pow]
    norm_num at h16 ⊢
    omega
  · intro hb0
    have h15 : (b0 <<< 8 ||| b1) < 2 ^ 15 := by
      refine Nat.or_lt_two_pow ?_ ?_
      · rw [hshl]; norm_num; omega
      · norm_num; omega
    rw [hres, Nat.shiftRight_eq_div_pow]
    norm_num at h15 ⊢
    omega

/-- C5-amended witness: instantiation at concrete response bytes. -/
theorem command_value_witness :
    (command envZ 0 GET_X).1 = (0 <<< 8 ||| 0) >>> 3 ∧
    (command envZ 0 GET_X).1 < 4096 :=
  ⟨(command_value envZ 0 GET_X 0 0 rfl (by decide) (by decide)).1,
   (command_value envZ 0 GET_X 0 0 rfl (by decide) (by decide)).2.2 (by decide)⟩

/-- C6: with an interrupt line present, `is_touched` reports touched iff
the line reads logic-low, and its trace contains no bus event: no
chip-select change, no SPI write, no SPI read. -/
theorem is_touched_int_pin (cfg : Config) (env : Env) (k : Nat)
    (h : cfg.hasIntPin = true) :
    ((is_touched cfg env k).1 = true ↔ env.pinValue = false) ∧
    ∀ e ∈ (is_touched cfg env k).2.2.2, isBusEvent e = false := by
  constructor
  · simp [is_touched, h]
  · intro e he
    simp [is_touched, h] at he
    subst he
    rfl

/-- C6 witness: instantiation at the default configuration. -/
theorem is_touched_int_pin_witness :
    (is_touched defaultConfig envA 0).1 = true ∧
    isBusEvent Event.pinRead = false :=
  ⟨((is_touched_int_pin defaultConfig envA 0 rfl).1).mpr rfl,
   (is_touched_int_pin defaultConfig envA 0 rfl).2 Event.pinRead (by decide)⟩

/-- C7 counterexample: with Z1 reading 11 and Z2 reading 10 the program's
double arithmetic reports touched (11/10 rounds to a double above
`1 + fl(0.1)`), although the exact condition `z1 / z2 - 1 > 0.1` fails,
the difference being exactly 1/10. -/
theorem is_touched_pressure_counterexample :
    (command envP 0 GET_Z1).1 = 11 ∧
    (command envP 1 GET_Z2).1 = 10 ∧
    (is_touched cfgNoPin envP 0).1 = true ∧
    ¬ ((11 : ℚ) / (10 : ℚ) - 1 > 1 / 10) :=
  ⟨rfl, rfl, by decide, by norm_num⟩

/-- C7 (amended): without an interrupt line, `is_touched` reads Z1 then
Z2, returns false whenever Z2 reads 0 (guarding the division), and
otherwise returns true iff the binary64 evaluation of `z1 / z2 - 1 > 0.1`
holds, i.e. iff `9907919180215091 * z2 ≤ z1 * 2^53`; the exact rational
condition `z1 / z2 - 1 > 1/10` still implies touched. -/
theorem is_touched_pressure (cfg : Config) (env : Env) (k z1 z2 : Nat)
    (h : cfg.hasIntPin = false)
    (hz1 : z1 = (command env k GET_Z1).1)
    (hz2 : z2 = (command env (k + 1) GET_Z2).1) :
    (z2 = 0 → (is_touched cfg env k).1 = false) ∧
    (z2 ≠ 0 → ((is_touched cfg env k).1 = true ↔
      9907919180215091 * z2 ≤ z1 * 2 ^ 53)) ∧
    (z2 ≠ 0 → (z1 : ℚ) / (z2 : ℚ) - 1 > 1 / 10 →
      (is_touched cfg env k).1 = true) := by
  subst hz1 hz2
  have hk : (command env k GET_Z1).2.1 = k + 1 := rfl
  have h1 : (is_touched cfg env k).1 =
      if (command env (k + 1) GET_Z2).1 = 0 then false
      else pressure_exceeds (command env k GET_Z1).1
        (command env (k + 1) GET_Z2).1 := by
    rw [is_touched]
    simp only [h, Bool.false_eq_true, if_false, hk]
    split <;> rfl
  refine ⟨?_, ?_, ?_⟩
  · intro h0
    rw [h1, if_pos h0]
  · intro h0
    rw [h1, if_neg h0, pressure_exceeds]
    exact decide_eq_true_iff
  · intro h0 hq
    have hzpos : 0 < (command env (k + 1) GET_Z2).1 := Nat.pos_of_ne_zero h0
    have hzq : (0 : ℚ) < ((command env (k + 1) GET_Z2).1 : ℚ) := by
      exact_mod_cast hzpos
    have hq2 : (11 : ℚ) / 10 < ((command env k GET_Z1).1 : ℚ) /
        ((command env (k + 1) GET_Z2).1 : ℚ) := by linarith
    have hmul : (11 : ℚ) * ((command env (k + 1) GET_Z2).1 : ℚ) <
        ((command env k GET_Z1).1 : ℚ) * 10 :=
      (div_lt_div_iff₀ (by norm_num) hzq).mp hq2
    have hnat : 11 * (command env (k + 1) GET_Z2).1 <
        (command env k GET_Z1).1 * 10 := by exact_mod_cast hmul
    rw [h1, if_neg h0, pressure_exceeds]
    simp only [decide_eq_true_eq]
    omega

/-- C7-amended witness: Z2 = 0 reports untouched, and the boundary pair
Z1 = 11, Z2 = 10 reports touched via the threshold test. -/
theorem is_touched_pressure_witness :
    (is_touched cfgNoPin envZ 0).1 = false ∧
    (is_touched cfgNoPin envP 0).1 = true :=
  ⟨(is_touched_pressure cfgNoPin envZ 0 0 0 rfl rfl rfl).1 rfl,
   ((is_touched_pressure cfgNoPin envP 0 11 10 rfl rfl rfl).2.1
     (by norm_num)).mpr (by norm_num)⟩

/-- C10: with a rotation index outside the set 0-3, `get_touch` returns
none even though the touch was detected and raw acquisition produced a
pair, so an invalid rotation is indistinguishable from a missed touch. -/
theorem invalid_rotation_none (cfg : Config) (env : Env) (k : Nat)
    (h0 : cfg.rotation ≠ 0) (h1 : cfg.rotation ≠ 1)
    (h2 : cfg.rotation ≠ 2) (h3 : cfg.rotation ≠ 3)
    (hN : 1 ≤ cfg.samples)
    (ht : (is_touched cfg env k).1 = true) :
    (∃ p, (get_raw_touch cfg env k).1 = some p) ∧
    (get_touch cfg env k).1 = none := by
  have hraw : ∃ p, (get_raw_touch cfg env k).1 = some p := by
    rw [get_raw_touch]
    simp only [ht, if_true]
    split
    · exact ⟨_, rfl⟩
    · exact ⟨_, rfl⟩
  obtain ⟨p, hp⟩ := hraw
  refine ⟨⟨p, hp⟩, ?_⟩
  rw [get_touch]
  simp only [hp]
  simp [apply_rotation, h0, h1, h2, h3]

/-- C10 witness: instantiation at rotation index 4 with a touched
environment. -/
theorem invalid_rotation_none_witness :
    (get_touch cfgRot4 envA 0).1 = none :=
  (invalid_rotation_none cfgRot4 envA 0 (by decide) (by decide) (by decide)
    (by decide) (by decide) (by decide)).2

/-- C3: `get_touch` applies the rotation transform keyed by the configured
rotation index to the pre-rotation pixel pair, using the unrotated width
and height as the transform constants. -/
theorem rotation_transform (cfg : Config) (env : Env) (k : Nat)
    (x_raw y_raw : Nat)
    (hraw : (get_raw_touch cfg env k).1 = some (x_raw, y_raw)) :
    (cfg.rotation = 0 → (get_touch cfg env k).1 =
      some ((map_coords cfg x_raw y_raw).1, (map_coords cfg x_raw y_raw).2)) ∧
    (cfg.rotation = 1 → (get_touch cfg env k).1 =
      some ((map_coords cfg x_raw y_raw).2,
        cfg.width - (map_coords cfg x_raw y_raw).1)) ∧
    (cfg.rotation = 2 → (get_touch cfg env k).1 =
      some (cfg.width - (map_coords cfg x_raw y_raw).1,
        cfg.height - (map_coords cfg x_raw y_raw).2)) ∧
    (cfg.rotation = 3 → (get_touch cfg env k).1 =
      some (cfg.height - (map_coords cfg x_raw y_raw).2,
        (map_coords cfg x_raw y_raw).1)) := by
  have hg : (get_touch cfg env k).1 =
      apply_rotation cfg (map_coords cfg x_raw y_raw).1
        (map_coords cfg x_raw y_raw).2 := by
    rw [get_touch]
    simp only [hraw]
  refine ⟨?_, ?_, ?_, ?_⟩ <;> intro hr <;> rw [hg] <;>
    simp [apply_rotation, hr]

/-- C3 witness: instantiation at rotation 0 with the default scenario. -/
theorem rotation_transform_witness :
    (get_touch defaultConfig envA 0).1 =
      some ((map_coords defaultConfig 1031 1000).1,
        (map_coords defaultConfig 1031 1000).2) :=
  (rotation_transform defaultConfig envA 0 1031 1000 (by decide)).1 rfl

/-- Helper: the sample buffers produced by the loop have length `n`. -/
theorem sampleLoop_length (env : Env) (d : Nat) :
    ∀ n k, (sampleLoop env d n k).1.length = n ∧
      (sampleLoop env d n k).2.1.length = n := by
  intro n
  induction n with
  | zero => intro k; exact ⟨rfl, rfl⟩
  | succ n ih =>
    intro k
    have := ih (command env (command env k GET_X).2.1 GET_Y).2.1
    simp only [sampleLoop, List.length_cons]
    omega

/-- C1: when a touch is detected, the filtered raw pair is, for a sample
count of at least 3, the entry at index `samples / 2` of any ascending
sort of the respective buffer, and, for sample counts 1 and 2, the floor
of the buffer sum divided by the sample count. -/
theorem median_filter (cfg : Config) (env : Env) (k : Nat)
    (xsm ysm : List Nat) (k1 : Nat) (t1 : List Event)
    (ht : (is_touched cfg env k).1 = true)
    (hSL : sampleLoop env cfg.touch_delay cfg.samples
      (is_touched cfg env k).2.2.1 = (xsm, ysm, k1, t1))
    (lx ly : List Nat) (hpx : lx.Perm xsm) (hsx : lx.Sorted (· ≤ ·))
    (hpy : ly.Perm ysm) (hsy : ly.Sorted (· ≤ ·)) :
    (3 ≤ cfg.samples →
      (get_raw_touch cfg env k).1 =
        some (lx.getD (cfg.samples / 2) 0, ly.getD (cfg.samples / 2) 0)) ∧
    ((cfg.samples = 1 ∨ cfg.samples = 2) →
      (get_raw_touch cfg env k).1 =
        some (xsm.sum / cfg.samples, ysm.sum / cfg.samples)) := by
  have hlx : lx = List.insertionSort (· ≤ ·) xsm :=
    List.eq_of_perm_of_sorted (hpx.trans (List.perm_insertionSort _ xsm).symm)
      hsx (List.sorted_insertionSort _ xsm)
  have hly : ly = List.insertionSort (· ≤ ·) ysm :=
    List.eq_of_perm_of_sorted (hpy.trans (List.perm_insertionSort _ ysm).symm)
      hsy (List.sorted_insertionSort _ ysm)
  have hlen : xsm.length = cfg.samples ∧ ysm.length = cfg.samples := by
    have := sampleLoop_length env cfg.touch_delay cfg.samples
      (is_touched cfg env k).2.2.1
    rw [hSL] at this
    exact this
  constructor
  · intro h3
    rw [get_raw_touch]
    simp only [ht, if_true, hSL, if_pos h3]
    rw [hlx, hly]
  · intro h12
    have h3 : ¬ 3 ≤ cfg.samples := by omega
    rw [get_raw_touch]
    simp only [ht, if_true, hSL, if_neg h3]
    rw [(List.perm_insertionSort _ xsm).sum_eq,
      (List.perm_insertionSort _ xsm).length_eq,
      (List.perm_insertionSort _ ysm).sum_eq,
      (List.perm_insertionSort _ ysm).length_eq,
      hlen.1, hlen.2]

/-- C1 witness: instantiation with three samples reading (1031, 1000). -/
theorem median_filter_witness :
    (get_raw_touch defaultConfig envA 0).1 = some (1031, 1000) :=
  ((median_filter defaultConfig envA 0 [1031, 1031, 1031] [1000, 1000, 1000]
      6 (sampleLoop envA 10 3 0).2.2.2 (by decide) (by decide)
      [1031, 1031, 1031] [1000, 1000, 1000]
      (by decide) (by decide) (by decide) (by decide)).1 (by decide)).trans
    (by decide)

/-- C2 counterexample: a raw X of 0 (below `x_min = 100`) is obtainable
from `get_raw_touch`; there the code's truncation toward zero yields the
pixel X 252, while the claimed floor formula yields 253. -/
theorem map_formula_counterexample :
    (get_raw_touch defaultConfig envCE 0).1 = some (0, 1000) ∧
    (get_touch defaultConfig envCE 0).1 = some (252, 160) ∧
    defaultConfig.width -
      Int.fdiv (((0 : Int) - defaultConfig.x_min) * defaultConfig.width)
        (defaultConfig.x_max - defaultConfig.x_min) = 253 ∧
    some ((252 : Int), (160 : Int)) ≠ some ((253 : Int), (160 : Int)) := by
  decide

/-- C2 (amended): for every raw pair returned by `get_raw_touch`, the
pre-rotation coordinates are computed by truncation toward zero (Python
`int()`), which agrees with the claimed floor division whenever the raw
value is at least the configured minimum; the concrete default scenario
with raw (1031, 1000) yields (120, 160). -/
theorem map_formula (cfg : Config) (env : Env) (k : Nat) (x_raw y_raw : Nat)
    (hx : cfg.x_min < cfg.x_max) (hy : cfg.y_min < cfg.y_max)
    (hraw : (get_raw_touch cfg env k).1 = some (x_raw, y_raw)) :
    (get_touch cfg env k).1 =
      apply_rotation cfg
        (cfg.width - Int.tdiv (((x_raw : Int) - cfg.x_min) * cfg.width)
          (cfg.x_max - cfg.x_min))
        (Int.tdiv (((y_raw : Int) - cfg.y_min) * cfg.height)
          (cfg.y_max - cfg.y_min)) ∧
    (cfg.x_min ≤ (x_raw : Int) → 0 ≤ cfg.width →
      Int.tdiv (((x_raw : Int) - cfg.x_min) * cfg.width) (cfg.x_max - cfg.x_min) =
      Int.fdiv (((x_raw : Int) - cfg.x_min) * cfg.width) (cfg.x_max - cfg.x_min)) ∧
    (cfg.y_min ≤ (y_raw : Int) → 0 ≤ cfg.height →
      Int.tdiv (((y_raw : Int) - cfg.y_min) * cfg.height) (cfg.y_max - cfg.y_min) =
      Int.fdiv (((y_raw : Int) - cfg.y_min) * cfg.height) (cfg.y_max - cfg.y_min)) ∧
    (get_touch defaultConfig envA 0).1 = some (120, 160) := by
  refine ⟨?_, ?_, ?_, by decide⟩
  · rw [get_touch]
    simp only [hraw]
    rw [map_coords]
  · intro hxm hw
    rw [Int.tdiv_eq_ediv (by nlinarith) (by omega),
      Int.fdiv_eq_ediv _ (by omega)]
  · intro hym hh
    rw [Int.tdiv_eq_ediv (by nlinarith) (by omega),
      Int.fdiv_eq_ediv _ (by omega)]

/-- C2-amended witness: the default scenario instantiation. -/
theorem map_formula_witness :
    (get_touch defaultConfig envA 0).1 = some (120, 160) :=
  (map_formula defaultConfig envA 0 1031 1000 (by decide) (by decide)
    (by decide)).2.2.2

/-- Helper: a truncating division of a product `a * w` by a span bounding
`a` stays between 0 and `w`. -/
theorem tdiv_mul_le (a s w : Int) (h0 : 0 ≤ a) (ha : a ≤ s)
    (hs : 0 < s) (hw : 0 ≤ w) :
    0 ≤ Int.tdiv (a * w) s ∧ Int.tdiv (a * w) s ≤ w := by
  have hnum : 0 ≤ a * w := mul_nonneg h0 hw
  have he : Int.tdiv (a * w) s = a * w / s := Int.tdiv_eq_ediv hnum hs.le
  constructor
  · rw [he]
    exact Int.ediv_nonneg hnum hs.le
  · rw [he]
    calc a * w / s ≤ s * w / s :=
          Int.ediv_le_ediv hs (mul_le_mul_of_nonneg_right ha hw)
    _ = w := Int.mul_ediv_cancel_left w hs.ne'

/-- C8: with rotation 0 and a raw pair from `get_raw_touch`, the returned
X lies in [0, width] whenever the raw X is within the calibration bounds,
and analogously for Y. -/
theorem output_range (cfg : Config) (env : Env) (k : Nat) (x_raw y_raw : Nat)
    (hrot : cfg.rotation = 0)
    (hx : cfg.x_min < cfg.x_max) (hy : cfg.y_min < cfg.y_max)
    (hw : 0 ≤ cfg.width) (hh : 0 ≤ cfg.height)
    (hraw : (get_raw_touch cfg env k).1 = some (x_raw, y_raw)) :
    (get_touch cfg env k).1 =
      some ((map_coords cfg x_raw y_raw).1, (map_coords cfg x_raw y_raw).2) ∧
    (cfg.x_min ≤ (x_raw : Int) → (x_raw : Int) ≤ cfg.x_max →
      0 ≤ (map_coords cfg x_raw y_raw).1 ∧
        (map_coords cfg x_raw y_raw).1 ≤ cfg.width) ∧
    (cfg.y_min ≤ (y_raw : Int) → (y_raw : Int) ≤ cfg.y_max →
      0 ≤ (map_coords cfg x_raw y_raw).2 ∧
        (map_coords cfg x_raw y_raw).2 ≤ cfg.height) := by
  have hg : (get_touch cfg env k).1 =
      apply_rotation cfg (map_coords cfg x_raw y_raw).1
        (map_coords cfg x_raw y_raw).2 := by
    rw [get_touch]
    simp only [hraw]
  refine ⟨by rw [hg]; simp [apply_rotation, hrot], ?_, ?_⟩
  · intro hxm hxM
    have hb := tdiv_mul_le ((x_raw : Int) - cfg.x_min) (cfg.x_max - cfg.x_min)
      cfg.width (by omega) (by omega) (by omega) hw
    dsimp only [map_coords]
    constructor <;> linarith [hb.1, hb.2]
  · intro hym hyM
    have hb := tdiv_mul_le ((y_raw : Int) - cfg.y_min) (cfg.y_max - cfg.y_min)
      cfg.height (by omega) (by omega) (by omega) hh
    dsimp only [map_coords]
    constructor <;> linarith [hb.1, hb.2]

/-- C8 witness: instantiation at the default scenario. -/
theorem output_range_witness :
    0 ≤ (map_coords defaultConfig 1031 1000).1 ∧
    (map_coords defaultConfig 1031 1000).1 ≤ defaultConfig.width :=
  (output_range defaultConfig envA 0 1031 1000 rfl (by decide) (by decide)
    (by decide) (by decide) (by decide)).2.1 (by decide) (by decide)

/-- Helper: the loop trace holds `2 * n` SPI reads, `n` sleeps, and its
command bytes alternate `GET_X`, `GET_Y` for `n` rounds. -/
theorem sampleLoop_counts (env : Env) (d : Nat) :
    ∀ n k, countReads (sampleLoop env d n k).2.2.2 = 2 * n ∧
      countSleeps (sampleLoop env d n k).2.2.2 = n ∧
      channelWrites (sampleLoop env d n k).2.2.2 =
        (List.replicate n [GET_X, GET_Y]).flatten := by
  intro n
  induction n with
  | zero => intro k; exact ⟨rfl, rfl, rfl⟩
  | succ n ih =>
    intro k
    obtain ⟨ih1, ih2, ih3⟩ := ih (k + 1 + 1)
    simp only [sampleLoop]
    refine ⟨?_, ?_, ?_⟩
    · simp only [countReads] at ih1
      simp [countReads, command, List.countP_append]
      omega
    · simp only [countSleeps] at ih2
      simp [countSleeps, command, List.countP_append]
      omega
    · simp only [channelWrites] at ih3
      simp [channelWrites, command, List.filterMap_append, List.replicate_succ, ih3]

/-- Helper: for at least one iteration, the loop trace ends in a settle
delay. -/
theorem sampleLoop_last_sleep (env : Env) (d : Nat) :
    ∀ n k, 1 ≤ n → ∃ t, (sampleLoop env d n k).2.2.2 = t ++ [Event.sleep_ms d] := by
  intro n
  induction n with
  | zero => intro k h; omega
  | succ n ih =>
    intro k h
    by_cases hn : 1 ≤ n
    · obtain ⟨t, htr⟩ := ih (command env (command env k GET_X).2.1 GET_Y).2.1 hn
      refine ⟨(command env k GET_X).2.2 ++
        (command env (command env k GET_X).2.1 GET_Y).2.2 ++
        (Event.sleep_ms d :: t), ?_⟩
      simp only [sampleLoop, htr]
      simp
    · have hn0 : n = 0 := by omega
      subst hn0
      exact ⟨(command env k GET_X).2.2 ++
        (command env (command env k GET_X).2.1 GET_Y).2.2, by simp [sampleLoop]⟩

/-- Helper: the presence check performs no settle delay. -/
theorem is_touched_no_sleep (cfg : Config) (env : Env) (k : Nat) :
    countSleeps (is_touched cfg env k).2.2.2 = 0 := by
  by_cases h : cfg.hasIntPin
  · simp [is_touched, h, countSleeps]
  · rw [is_touched]
    simp only [h, Bool.false_eq_true, if_false]
    split <;> rfl

/-- C4 (amended): beyond the channel reads of the presence check itself
(zero with an interrupt line, two without), `get_raw_touch` issues no
channel reads and returns none whenever `is_touched` is false; when it is
true, the acquisition adds exactly `samples * 2` channel reads alternating
one X and one Y read per iteration, performs exactly `samples` settle
delays in total, and the trace ends with a delay after the last sample. -/
theorem raw_touch_reads (cfg : Config) (env : Env) (k : Nat)
    (touched : Bool) (ht : (is_touched cfg env k).1 = touched) :
    (touched = false → (get_raw_touch cfg env k).1 = none ∧
      (get_raw_touch cfg env k).2.2.2 = (is_touched cfg env k).2.2.2) ∧
    (touched = true →
      countReads (get_raw_touch cfg env k).2.2.2 =
        countReads (is_touched cfg env k).2.2.2 + 2 * cfg.samples ∧
      countSleeps (get_raw_touch cfg env k).2.2.2 = cfg.samples ∧
      channelWrites (get_raw_touch cfg env k).2.2.2 =
        channelWrites (is_touched cfg env k).2.2.2 ++
          (List.replicate cfg.samples [GET_X, GET_Y]).flatten ∧
      (1 ≤ cfg.samples →
        (get_raw_touch cfg env k).2.2.2.getLast? =
          some (Event.sleep_ms cfg.touch_delay))) := by
  constructor
  · intro hf
    subst hf
    rw [get_raw_touch]
    simp only [ht]
    exact ⟨rfl, rfl⟩
  · intro htt
    subst htt
    have htr : (get_raw_touch cfg env k).2.2.2 =
        (is_touched cfg env k).2.2.2 ++
          (sampleLoop env cfg.touch_delay cfg.samples
            (is_touched cfg env k).2.2.1).2.2.2 := by
      rw [get_raw_touch]
      simp only [ht, if_true]
      split <;> rfl
    obtain ⟨hc1, hc2, hc3⟩ := sampleLoop_counts env cfg.touch_delay cfg.samples
      (is_touched cfg env k).2.2.1
    refine ⟨?_, ?_, ?_, ?_⟩
    · rw [htr]
      simp only [countReads] at hc1
      simp only [countReads, List.countP_append]
      omega
    · rw [htr]
      have h0 := is_touched_no_sleep cfg env k
      simp only [countSleeps] at hc2 h0
      simp only [countSleeps, List.countP_append]
      omega
    · rw [htr]
      simp only [channelWrites] at hc3
      simp only [channelWrites, List.filterMap_append]
      rw [hc3]
    · intro hn
      obtain ⟨t, htl⟩ := sampleLoop_last_sleep env cfg.touch_delay cfg.samples
        (is_touched cfg env k).2.2.1 hn
      rw [htr, htl, ← List.append_assoc]
      exact List.getLast?_concat _

/-- C4 counterexample: without an interrupt line, an untouched acquisition
still issues two channel reads (Z1 and Z2 from the presence check), not
zero. -/
theorem raw_touch_reads_counterexample :
    (is_touched cfgNoPin envZ 0).1 = false ∧
    (get_raw_touch cfgNoPin envZ 0).1 = none ∧
    countReads (get_raw_touch cfgNoPin envZ 0).2.2.2 = 2 ∧ (2 : Nat) ≠ 0 := by
  decide

/-- C4-amended witness: instantiation at the default interrupt-line
configuration with three samples. -/
theorem raw_touch_reads_witness :
    countSleeps (get_raw_touch defaultConfig envA 0).2.2.2 = 3 ∧
    (get_raw_touch defaultConfig envA 0).2.2.2.getLast? =
      some (Event.sleep_ms 10) :=
  ⟨((raw_touch_reads defaultConfig envA 0 true rfl).2 rfl).2.1,
   ((raw_touch_reads defaultConfig envA 0 true rfl).2 rfl).2.2.2 (by decide)⟩

/-- Helper: a command transaction's value and trace depend only on the
response bytes at its transaction index. -/
theorem command_congr (env env' : Env) (k k' c : Nat)
    (h : env.bytes k = env'.bytes k') :
    (command env k c).1 = (command env' k' c).1 ∧
    (command env k c).2.2 = (command env' k' c).2.2 := by
  simp [command, h]

/-- Helper: the sampling loop's buffers and trace depend only on the
response bytes from its starting transaction index on. -/
theorem sampleLoop_congr (env env' : Env) (d : Nat) :
    ∀ n k k', (∀ j, env.bytes (k + j) = env'.bytes (k' + j)) →
      (sampleLoop env d n k).1 = (sampleLoop env' d n k').1 ∧
      (sampleLoop env d n k).2.1 = (sampleLoop env' d n k').2.1 ∧
      (sampleLoop env d n k).2.2.2 = (sampleLoop env' d n k').2.2.2 := by
  intro n
  induction n with
  | zero => intro k k' h; exact ⟨rfl, rfl, rfl⟩
  | succ n ih =>
    intro k k' h
    have h0 : env.bytes k = env'.bytes k' := by simpa using h 0
    have h1 : env.bytes (k + 1) = env'.bytes (k' + 1) := h 1
    obtain ⟨e1, e2, e3⟩ := ih (k + 1 + 1) (k' + 1 + 1) (fun j => by
      have hh := h (j + 2)
      have e : k + (j + 2) = k + 1 + 1 + j := by omega
      have e' : k' + (j + 2) = k' + 1 + 1 + j := by omega
      rw [e, e'] at hh
      exact hh)
    simp only [sampleLoop]
    refine ⟨?_, ?_, ?_⟩ <;> simp [command, h0, h1, e1, e2, e3]

/-- Helper: the presence check's result and trace depend only on the pin
level and on the response bytes at its transaction indices. -/
theorem is_touched_congr (cfg : Config) (env env' : Env) (k k' : Nat)
    (hpin : env.pinValue = env'.pinValue)
    (h : ∀ j, env.bytes (k + j) = env'.bytes (k' + j)) :
    (is_touched cfg env k).1 = (is_touched cfg env' k').1 := by
  have h0 : env.bytes k = env'.bytes k' := by simpa using h 0
  have h1 : env.bytes (k + 1) = env'.bytes (k' + 1) := h 1
  by_cases hp : cfg.hasIntPin
  · simp [is_touched, hp, hpin]
  · rw [is_touched, is_touched]
    simp only [hp, Bool.false_eq_true, if_false]
    simp only [command, h0, h1]
    split <;> rfl

/-- Helper: the raw acquisition result depends only on the collaborator
responses, not on any state carried between calls. -/
theorem get_raw_touch_congr (cfg : Config) (env env' : Env) (k k' : Nat)
    (hpin : env.pinValue = env'.pinValue)
    (h : ∀ j, env.bytes (k + j) = env'.bytes (k' + j)) :
    (get_raw_touch cfg env k).1 = (get_raw_touch cfg env' k').1 := by
  have ht := is_touched_congr cfg env env' k k' hpin h
  by_cases hp : cfg.hasIntPin
  · have hs1 : (is_touched cfg env k).2.2.1 = k := by simp [is_touched, hp]
    have hs2 : (is_touched cfg env' k').2.2.1 = k' := by simp [is_touched, hp]
    obtain ⟨l1, l2, l3⟩ :=
      sampleLoop_congr env env' cfg.touch_delay cfg.samples k k' h
    rw [get_raw_touch, get_raw_touch]
    cases hb : (is_touched cfg env' k').1
    · rw [ht, hb]
      simp
    · rw [ht, hb]
      simp only [if_true, hs1, hs2, l1, l2]
      split <;> rfl
  · have hs1 : (is_touched cfg env k).2.2.1 = k + 1 + 1 := by
      rw [is_touched]
      simp only [hp, Bool.false_eq_true, if_false]
      split <;> simp [command]
    have hs2 : (is_touched cfg env' k').2.2.1 = k' + 1 + 1 := by
      rw [is_touched]
      simp only [hp, Bool.false_eq_true, if_false]
      split <;> simp [command]
    obtain ⟨l1, l2, l3⟩ :=
      sampleLoop_congr env env' cfg.touch_delay cfg.samples (k + 1 + 1)
        (k' + 1 + 1) (fun j => by
          have hh := h (j + 2)
          have e : k + (j + 2) = k + 1 + 1 + j := by omega
          have e' : k' + (j + 2) = k' + 1 + 1 + j := by omega
          rw [e, e'] at hh
          exact hh)
    rw [get_raw_touch, get_raw_touch]
    cases hb : (is_touched cfg env' k').1
    · rw [ht, hb]
      simp
    · rw [ht, hb]
      simp only [if_true, hs1, hs2, l1, l2]
      split <;> rfl

/-- Helper: the calibrated result depends only on the collaborator
responses. -/
theorem get_touch_congr (cfg : Config) (env env' : Env) (k k' : Nat)
    (hpin : env.pinValue = env'.pinValue)
    (h : ∀ j, env.bytes (k + j) = env'.bytes (k' + j)) :
    (get_touch cfg env k).1 = (get_touch cfg env' k').1 := by
  have hr := get_raw_touch_congr cfg env env' k k' hpin h
  rcases hs : (get_raw_touch cfg env' k').1 with _ | ⟨xr, yr⟩ <;>
    rw [hs] at hr <;> simp [get_touch, hr, hs]

/-- C9: every public operation leaves the configuration unchanged, and two
calls observing identical collaborator responses (same pin level, same
response bytes from their respective starting transactions) return the
same results, so no sample buffer or other acquisition state survives a
call. -/
theorem state_frame (cfg : Config) (env env' : Env) (k k' : Nat)
    (hpin : env.pinValue = env'.pinValue)
    (hbytes : ∀ j, env.bytes (k + j) = env'.bytes (k' + j)) :
    (is_touched cfg env k).2.1 = cfg ∧
    (get_raw_touch cfg env k).2.1 = cfg ∧
    (get_touch cfg env k).2.1 = cfg ∧
    (is_touched cfg env k).1 = (is_touched cfg env' k').1 ∧
    (get_raw_touch cfg env k).1 = (get_raw_touch cfg env' k').1 ∧
    (get_touch cfg env k).1 = (get_touch cfg env' k').1 := by
  have f1 : (is_touched cfg env k).2.1 = cfg := by
    by_cases hp : cfg.hasIntPin
    · simp [is_touched, hp]
    · rw [is_touched]
      simp only [hp, Bool.false_eq_true, if_false]
      split <;> rfl
  have f2 : (get_raw_touch cfg env k).2.1 = cfg := by
    cases htb : (is_touched cfg env k).1
    · rw [get_raw_touch]
      simp only [htb]
      rfl
    · rw [get_raw_touch]
      simp only [htb, if_true]
      split <;> rfl
  have f3 : (get_touch cfg env k).2.1 = cfg := by
    rcases hs : (get_raw_touch cfg env k).1 with _ | ⟨xr, yr⟩ <;>
      simp [get_touch, hs]
  exact ⟨f1, f2, f3, is_touched_congr cfg env env' k k' hpin hbytes,
    get_raw_touch_congr cfg env env' k k' hpin hbytes,
    get_touch_congr cfg env env' k k' hpin hbytes⟩

/-- C9 witness: instantiation at the default configuration and scenario
environment. -/
theorem state_frame_witness :
    (is_touched defaultConfig envA 0).2.1 = defaultConfig ∧
    (get_raw_touch defaultConfig envA 0).2.1 = defaultConfig ∧
    (get_touch defaultConfig envA 0).2.1 = defaultConfig :=
  ⟨(state_frame defaultConfig envA envA 0 0 rfl (fun _ => rfl)).1,
   (state_frame defaultConfig envA envA 0 0 rfl (fun _ => rfl)).2.1,
   (state_frame defaultConfig envA envA 0 0 rfl (fun _ => rfl)).2.2.1⟩
